import Mathlib

/-!
Shallow embedding of the Hydrate backend (server.js) reminder scheduler.

Times are integers: epoch milliseconds (UTC).  JavaScript `Date` local-calendar
methods (`getHours`, `getMinutes`, `getFullYear`, `getMonth`, `getDate`, and the
wall-clock constructor) depend on the evaluating process's timezone; this is
modelled by an explicit `hostOffsetMinutes : Int` parameter, the fixed number of
minutes to add to UTC to obtain the host's wall-clock time (the deployment image
`node:18-slim` runs with `TZ` unset, i.e. host offset 0).  Civil-calendar
conversion uses the standard proleptic-Gregorian algorithms.
-/

namespace Hydrate

/-- Civil date (year, month 1..12, day) from a count of days since 1970-01-01,
the proleptic-Gregorian conversion used by JavaScript Date field getters. -/
def civilFromDays (z : Int) : Int × Int × Int :=
  let z2 := z + 719468
  let era := z2.fdiv 146097
  let doe := z2 - era * 146097
  let yoe := (doe - doe.fdiv 1460 + doe.fdiv 36524 - doe.fdiv 146096).fdiv 365
  let y := yoe + era * 400
  let doy := doe - (365 * yoe + yoe.fdiv 4 - yoe.fdiv 100)
  let mp := (5 * doy + 2).fdiv 153
  let d := doy - (153 * mp + 2).fdiv 5 + 1
  let m := if mp < 10 then mp + 3 else mp - 9
  (if m ≤ 2 then y + 1 else y, m, d)

/-- Days since 1970-01-01 of a civil date (month 1-based; out-of-range months
normalise into the year, as the JavaScript Date constructor does). -/
def daysFromCivil (y m d : Int) : Int :=
  let y2 := y + (m - 1).fdiv 12
  let m2 := (m - 1).emod 12 + 1
  let y3 := if m2 ≤ 2 then y2 - 1 else y2
  let era := y3.fdiv 400
  let yoe := y3 - era * 400
  let mp := (m2 + 9).emod 12
  let doy := (153 * mp + 2).fdiv 5 + d - 1
  let doe := yoe * 365 + yoe.fdiv 4 - yoe.fdiv 100 + doy
  era * 146097 + doe - 719468

/-- JavaScript `new Date(ms).getHours()` on a host whose fixed UTC offset is
`hostOff` minutes. -/
def dateHours (hostOff ms : Int) : Int :=
  ((ms + hostOff * 60000).fdiv 3600000).emod 24

/-- JavaScript `new Date(ms).getMinutes()` on a host with offset `hostOff`. -/
def dateMinutes (hostOff ms : Int) : Int :=
  ((ms + hostOff * 60000).fdiv 60000).emod 60

/-- JavaScript `new Date(ms).getFullYear()` on a host with offset `hostOff`. -/
def getFullYear (hostOff ms : Int) : Int :=
  (civilFromDays ((ms + hostOff * 60000).fdiv 86400000)).1

/-- JavaScript `new Date(ms).getMonth()` (0-based month) on a host with offset
`hostOff`. -/
def getMonth (hostOff ms : Int) : Int :=
  (civilFromDays ((ms + hostOff * 60000).fdiv 86400000)).2.1 - 1

/-- JavaScript `new Date(ms).getDate()` (day of month) on a host with offset
`hostOff`. -/
def getDate (hostOff ms : Int) : Int :=
  (civilFromDays ((ms + hostOff * 60000).fdiv 86400000)).2.2

/-- JavaScript `new Date(y, monthIdx, d, h, mi, s, ms).getTime()` on a host with
offset `hostOff`: the wall-clock fields are interpreted in host-local time. -/
def mkDateMs (hostOff y monthIdx d h mi s ms : Int) : Int :=
  daysFromCivil y (monthIdx + 1) d * 86400000
    + h * 3600000 + mi * 60000 + s * 1000 + ms - hostOff * 60000

/-- Reminder record (server.js `/addReminder`).  `time` is the parsed "HH:MM"
pair (`split(':').map(Number)`), `repeatUntil` likewise when present, and
`lastSentISO` is the epoch-millisecond instant of the recorded ISO timestamp
(`null` is `none`). -/
structure Reminder where
  id : String
  time : Int × Int
  timezoneOffsetMinutes : Int
  repeatEveryMinutes : Int
  repeatUntil : Option (Int × Int)
  lastSentISO : Option Int
deriving DecidableEq

/-- The 70-second debounce shared by both branches of `shouldFireReminder`:
`if (rem.lastSentISO) { if (nowUtcMs - last.getTime() < 70*1000) return false }
return true`. -/
def debounceOk (lastSent : Option Int) (nowUtcMs : Int) : Bool :=
  match lastSent with
  | some last => if nowUtcMs - last < 70 * 1000 then false else true
  | none => true

/-- `scheduledUtcMs` of the repeating branch (server.js lines 220-221):
today's local date (fields of `userLocal`) at `sh:sm:00.000`, converted back by
adding `tz` minutes. -/
def schedUtc (hostOff : Int) (rem : Reminder) (nowUtcMs : Int) : Int :=
  mkDateMs hostOff
    (getFullYear hostOff (nowUtcMs - rem.timezoneOffsetMinutes * 60000))
    (getMonth hostOff (nowUtcMs - rem.timezoneOffsetMinutes * 60000))
    (getDate hostOff (nowUtcMs - rem.timezoneOffsetMinutes * 60000))
    rem.time.1 rem.time.2 0 0
  + rem.timezoneOffsetMinutes * 60000

/-- The `repeatUntil` window check (server.js lines 224-229): true when the
window is set and `nowUtcMs` exceeds today's local `uh:um:59.999` in UTC. -/
def untilExceeded (hostOff : Int) (rem : Reminder) (nowUtcMs : Int) : Bool :=
  match rem.repeatUntil with
  | some u =>
      nowUtcMs >
        mkDateMs hostOff
          (getFullYear hostOff (nowUtcMs - rem.timezoneOffsetMinutes * 60000))
          (getMonth hostOff (nowUtcMs - rem.timezoneOffsetMinutes * 60000))
          (getDate hostOff (nowUtcMs - rem.timezoneOffsetMinutes * 60000))
          u.1 u.2 59 999
        + rem.timezoneOffsetMinutes * 60000
  | none => false

/-- `shouldFireReminder(rem, nowUtcMs)` (server.js lines 201-241), with the
host's fixed UTC offset explicit.  `userLocalMs = nowUtcMs - tz*60*1000`; the
non-repeating branch compares host-local hour/minute fields of `userLocalMs`;
the repeating branch builds the scheduled start and optional until-window from
`userLocal`'s host-local calendar date and fires on every `repeatEveryMinutes`th
whole minute, both branches subject to the 70-second debounce. -/
def shouldFireReminder (hostOff : Int) (rem : Reminder) (nowUtcMs : Int) : Bool :=
  if rem.repeatEveryMinutes ≤ 0 then
    if dateHours hostOff (nowUtcMs - rem.timezoneOffsetMinutes * 60000) = rem.time.1
        ∧ dateMinutes hostOff (nowUtcMs - rem.timezoneOffsetMinutes * 60000) = rem.time.2 then
      debounceOk rem.lastSentISO nowUtcMs
    else false
  else
    if nowUtcMs < schedUtc hostOff rem nowUtcMs then false
    else if untilExceeded hostOff rem nowUtcMs then false
    else if (nowUtcMs - schedUtc hostOff rem nowUtcMs).fdiv 60000 < 0 then false
    else if ((nowUtcMs - schedUtc hostOff rem nowUtcMs).fdiv 60000).tmod
        rem.repeatEveryMinutes = 0 then
      debounceOk rem.lastSentISO nowUtcMs
    else false

/-- C1: for a non-repeating reminder, `shouldFireReminder` on a UTC host is true
exactly when the local time derived from `nowUtc` (UTC minus the offset) has
hour and minute equal to the reminder's parsed time and, when `lastSentISO` is
set, at least 70 seconds have elapsed since it; false at every other instant. -/
theorem shouldFireReminder_nonRepeat_iff (rem : Reminder) (now : Int)
    (h : rem.repeatEveryMinutes = 0) :
    shouldFireReminder 0 rem now = true ↔
      (dateHours 0 (now - rem.timezoneOffsetMinutes * 60000) = rem.time.1
        ∧ dateMinutes 0 (now - rem.timezoneOffsetMinutes * 60000) = rem.time.2
        ∧ ∀ last, rem.lastSentISO = some last → 70 * 1000 ≤ now - last) := by
  unfold shouldFireReminder debounceOk
  rcases hls : rem.lastSentISO with _ | l
  · simp [h, hls]
  · simp only [h, le_refl, if_true, hls]
    split_ifs with h1 h2
    · exact iff_of_false (by simp) (by rintro ⟨-, -, hd⟩; have := hd l rfl; omega)
    · exact iff_of_true rfl ⟨h1.1, h1.2, fun a ha => by cases ha; omega⟩
    · exact iff_of_false (by simp) (fun hc => h1 ⟨hc.1, hc.2.1⟩)

/-- Witness for C1 at the spec's scenario: the reminder
`time "08:00", offset 0, no repeat` fires at UTC 08:00:00 of day 0, does not
fire at 08:00:30 once `lastSentISO` records 08:00:00, and fires again at
08:00:00 the next day. -/
theorem shouldFireReminder_nonRepeat_iff_witness :
    shouldFireReminder 0 ⟨"r1", (8, 0), 0, 0, none, none⟩ 28800000 = true
      ∧ shouldFireReminder 0 ⟨"r1", (8, 0), 0, 0, none, some 28800000⟩ 28830000 = false
      ∧ shouldFireReminder 0 ⟨"r1", (8, 0), 0, 0, none, some 28800000⟩ 115200000 = true := by
  exact ⟨(shouldFireReminder_nonRepeat_iff ⟨"r1", (8, 0), 0, 0, none, none⟩ 28800000
    rfl).mpr (by decide), by decide, by decide⟩

/-- C10: when `repeatEveryMinutes` is zero or negative, the result of
`shouldFireReminder` does not depend on `repeatUntil` at all — replacing the
field by any other value (set or unset) gives the same result at every host
offset and every instant. -/
theorem shouldFireReminder_nonRepeat_ignores_repeatUntil (hostOff : Int)
    (rem : Reminder) (now : Int) (ru : Option (Int × Int))
    (h : rem.repeatEveryMinutes ≤ 0) :
    shouldFireReminder hostOff rem now
      = shouldFireReminder hostOff { rem with repeatUntil := ru } now := by
  unfold shouldFireReminder
  simp [h]

/-- Witness for C10: a concrete non-repeating reminder gives the same result
with `repeatUntil` unset and with `repeatUntil` set to 07:00. -/
theorem shouldFireReminder_nonRepeat_ignores_repeatUntil_witness :
    shouldFireReminder 0 ⟨"r1", (8, 0), 0, 0, none, none⟩ 28800000
      = shouldFireReminder 0 ⟨"r1", (8, 0), 0, 0, some (7, 0), none⟩ 28800000 :=
  shouldFireReminder_nonRepeat_ignores_repeatUntil 0
    ⟨"r1", (8, 0), 0, 0, none, none⟩ 28800000 (some (7, 0)) (by decide)

/-- C2: for a repeating reminder (`repeatEveryMinutes = N > 0`, no
`repeatUntil`, no `lastSentISO`) and any integer offset, `shouldFireReminder`
is true exactly when `nowUtc` is at or after the scheduled start instant of the
local day and the whole-minute difference `floor((now - scheduled)/60000)` is a
multiple of `N`; false at every other instant (in particular before the
start). -/
theorem shouldFireReminder_repeat_iff (hostOff : Int) (rem : Reminder) (now : Int)
    (hN : 0 < rem.repeatEveryMinutes) (hU : rem.repeatUntil = none)
    (hL : rem.lastSentISO = none) :
    shouldFireReminder hostOff rem now = true ↔
      (schedUtc hostOff rem now ≤ now
        ∧ ((now - schedUtc hostOff rem now).fdiv 60000).tmod
            rem.repeatEveryMinutes = 0) := by
  unfold shouldFireReminder untilExceeded debounceOk
  have hN' : ¬ rem.repeatEveryMinutes ≤ 0 := by omega
  simp only [hN', if_false, hU, hL, decide_eq_true_eq]
  split_ifs with h1 h2 h3 h4
  · exact iff_of_false (by simp) (by rintro ⟨hc, -⟩; omega)
  · exact h2.elim
  · exact absurd (Int.fdiv_nonneg (a := now - schedUtc hostOff rem now)
      (b := 60000) (by omega) (by omega)) (by omega)
  · exact iff_of_true rfl ⟨by omega, h4⟩
  · exact iff_of_false (by simp) (fun hc => h4 hc.2)

/-- Witness for C2 at the spec's repeating scenario (offset −120, every 30
minutes starting 09:00 local): fires at local 09:00 (UTC 07:00 of day 0). -/
theorem shouldFireReminder_repeat_iff_witness :
    shouldFireReminder 0 ⟨"r2", (9, 0), -120, 30, none, none⟩ 25200000 = true :=
  (shouldFireReminder_repeat_iff 0 ⟨"r2", (9, 0), -120, 30, none, none⟩ 25200000
    (by decide) rfl rfl).mpr (by decide)

/-- C3: a repeating reminder whose `repeatUntil` time-of-day is strictly
earlier than its `time` never fires, at any host offset and any instant: the
until-window ends before the scheduled start of the same local day, so no
overnight wraparound occurs. -/
theorem shouldFireReminder_untilBeforeTime_false (hostOff : Int) (rem : Reminder)
    (now : Int) (uh um : Int) (hN : 0 < rem.repeatEveryMinutes)
    (hU : rem.repeatUntil = some (uh, um))
    (hlt : uh * 60 + um < rem.time.1 * 60 + rem.time.2) :
    shouldFireReminder hostOff rem now = false := by
  unfold shouldFireReminder untilExceeded schedUtc mkDateMs
  have hN' : ¬ rem.repeatEveryMinutes ≤ 0 := by omega
  simp only [hN', if_false, hU, decide_eq_true_eq]
  generalize (daysFromCivil
    (getFullYear hostOff (now - rem.timezoneOffsetMinutes * 60000))
    (getMonth hostOff (now - rem.timezoneOffsetMinutes * 60000) + 1)
    (getDate hostOff (now - rem.timezoneOffsetMinutes * 60000))) = w
  split_ifs with h1 h2 h3 h4 <;> try rfl
  exfalso
  omega

/-- Witness for C3: the reminder `time 09:00, repeat every 30, until 08:00`
does not fire at UTC 10:00 of day 0 (an instant inside its would-be repeat
schedule). -/
theorem shouldFireReminder_untilBeforeTime_false_witness :
    shouldFireReminder 0 ⟨"r3", (9, 0), 0, 30, some (8, 0), none⟩ 36000000 = false :=
  shouldFireReminder_untilBeforeTime_false 0
    ⟨"r3", (9, 0), 0, 30, some (8, 0), none⟩ 36000000 8 0 (by decide) rfl (by decide)

/-- Debounce test expressed on the elapsed time `nowUtcMs - last` instead of
the absolute timestamps. -/
def debounceElapsed (elapsed : Option Int) : Bool :=
  match elapsed with
  | some e => if e < 70 * 1000 then false else true
  | none => true

/-- Wall-clock milliseconds of today's (relative to the field-reading instant
`lf`) civil date at `h:mi:s.ms`, with no host offset. -/
def canonWall (lf h mi s ms : Int) : Int :=
  mkDateMs 0 (getFullYear 0 lf) (getMonth 0 lf) (getDate 0 lf) h mi s ms

/-- Canonical form of the `repeatUntil` check. -/
def canonUntil (ru : Option (Int × Int)) (lf : Int) : Bool :=
  match ru with
  | some u => decide (lf > canonWall lf u.1 u.2 59 999)
  | none => false

/-- Canonical form of the matcher: a function of the repeat period, the parsed
time, the window, the elapsed time since the last send, and the single instant
`lf = nowUtc - tz*60000 + hostOff*60000` whose calendar fields are read. -/
def fireCanon (rep sh sm : Int) (ru : Option (Int × Int)) (elapsed : Option Int)
    (lf : Int) : Bool :=
  if rep ≤ 0 then
    if dateHours 0 lf = sh ∧ dateMinutes 0 lf = sm then debounceElapsed elapsed
    else false
  else
    if lf < canonWall lf sh sm 0 0 then false
    else if canonUntil ru lf then false
    else if (lf - canonWall lf sh sm 0 0).fdiv 60000 < 0 then false
    else if ((lf - canonWall lf sh sm 0 0).fdiv 60000).tmod rep = 0 then
      debounceElapsed elapsed
    else false

/-- The matcher factors through `fireCanon`: its result depends on the inputs
only through the repeat period, the parsed times, the elapsed time since the
last send, and the single shifted instant
`nowUtc - tz*60000 + hostOff*60000`. -/
theorem shouldFireReminder_eq_fireCanon (hostOff : Int) (rem : Reminder) (now : Int) :
    shouldFireReminder hostOff rem now
      = fireCanon rem.repeatEveryMinutes rem.time.1 rem.time.2 rem.repeatUntil
          (rem.lastSentISO.map (fun l => now - l))
          (now - rem.timezoneOffsetMinutes * 60000 + hostOff * 60000) := by
  obtain ⟨i, ⟨sh, sm⟩, tz, rep, ru, ls⟩ := rem
  dsimp only
  unfold shouldFireReminder fireCanon schedUtc untilExceeded canonUntil
  have hz : ∀ x : Int, x + 0 * 60000 = x := fun x => by ring
  have dh : dateHours hostOff (now - tz * 60000)
      = dateHours 0 (now - tz * 60000 + hostOff * 60000) := by
    unfold dateHours; rw [hz]
  have dm : dateMinutes hostOff (now - tz * 60000)
      = dateMinutes 0 (now - tz * 60000 + hostOff * 60000) := by
    unfold dateMinutes; rw [hz]
  have ws : ∀ a b c d : Int,
      mkDateMs hostOff (getFullYear hostOff (now - tz * 60000))
        (getMonth hostOff (now - tz * 60000)) (getDate hostOff (now - tz * 60000)) a b c d
        = canonWall (now - tz * 60000 + hostOff * 60000) a b c d - hostOff * 60000 := by
    intro a b c d
    unfold canonWall mkDateMs getFullYear getMonth getDate
    rw [hz]
    ring
  rw [dh, dm]
  simp only [ws]
  have e2 : now - (canonWall (now - tz * 60000 + hostOff * 60000) sh sm 0 0
      - hostOff * 60000 + tz * 60000)
      = now - tz * 60000 + hostOff * 60000
        - canonWall (now - tz * 60000 + hostOff * 60000) sh sm 0 0 := by ring
  have i1 : (now < canonWall (now - tz * 60000 + hostOff * 60000) sh sm 0 0
      - hostOff * 60000 + tz * 60000)
      ↔ (now - tz * 60000 + hostOff * 60000
          < canonWall (now - tz * 60000 + hostOff * 60000) sh sm 0 0) := by omega
  rw [e2]
  simp only [i1]
  cases ru with
  | none =>
      cases ls with
      | none => rfl
      | some l => rfl
  | some u =>
      obtain ⟨uh, um⟩ := u
      dsimp only
      have i3 : (now > canonWall (now - tz * 60000 + hostOff * 60000) uh um 59 999
          - hostOff * 60000 + tz * 60000)
          ↔ (now - tz * 60000 + hostOff * 60000
              > canonWall (now - tz * 60000 + hostOff * 60000) uh um 59 999) := by omega
      simp only [decide_eq_true_eq, i3]
      cases ls with
      | none => rfl
      | some l => rfl

/-- Rendering of claim C4's reading of the offset ("integer minutes to add to
UTC to get local time"): identical to `shouldFireReminder` except that the
local instant is `nowUtc + tz*60000` and the wall-clock values are converted
back to UTC by subtracting `tz*60000`. -/
def shouldFireReminderAddingOffset (hostOff : Int) (rem : Reminder) (nowUtcMs : Int) : Bool :=
  if rem.repeatEveryMinutes ≤ 0 then
    if dateHours hostOff (nowUtcMs + rem.timezoneOffsetMinutes * 60000) = rem.time.1
        ∧ dateMinutes hostOff (nowUtcMs + rem.timezoneOffsetMinutes * 60000) = rem.time.2 then
      debounceOk rem.lastSentISO nowUtcMs
    else false
  else
    if nowUtcMs <
        mkDateMs hostOff
          (getFullYear hostOff (nowUtcMs + rem.timezoneOffsetMinutes * 60000))
          (getMonth hostOff (nowUtcMs + rem.timezoneOffsetMinutes * 60000))
          (getDate hostOff (nowUtcMs + rem.timezoneOffsetMinutes * 60000))
          rem.time.1 rem.time.2 0 0
        - rem.timezoneOffsetMinutes * 60000 then false
    else if (match rem.repeatUntil with
      | some u =>
          decide (nowUtcMs >
            mkDateMs hostOff
              (getFullYear hostOff (nowUtcMs + rem.timezoneOffsetMinutes * 60000))
              (getMonth hostOff (nowUtcMs + rem.timezoneOffsetMinutes * 60000))
              (getDate hostOff (nowUtcMs + rem.timezoneOffsetMinutes * 60000))
              u.1 u.2 59 999
            - rem.timezoneOffsetMinutes * 60000)
      | none => false) then false
    else if ((nowUtcMs -
        (mkDateMs hostOff
          (getFullYear hostOff (nowUtcMs + rem.timezoneOffsetMinutes * 60000))
          (getMonth hostOff (nowUtcMs + rem.timezoneOffsetMinutes * 60000))
          (getDate hostOff (nowUtcMs + rem.timezoneOffsetMinutes * 60000))
          rem.time.1 rem.time.2 0 0
        - rem.timezoneOffsetMinutes * 60000)).fdiv 60000) < 0 then false
    else if ((nowUtcMs -
        (mkDateMs hostOff
          (getFullYear hostOff (nowUtcMs + rem.timezoneOffsetMinutes * 60000))
          (getMonth hostOff (nowUtcMs + rem.timezoneOffsetMinutes * 60000))
          (getDate hostOff (nowUtcMs + rem.timezoneOffsetMinutes * 60000))
          rem.time.1 rem.time.2 0 0
        - rem.timezoneOffsetMinutes * 60000)).fdiv 60000).tmod
        rem.repeatEveryMinutes = 0 then
      debounceOk rem.lastSentISO nowUtcMs
    else false

/-- Counterexample for C4: with `time "08:00"` and offset +60, the source
matcher fires at UTC 09:00 (it subtracts the offset, local 08:00) and not at
UTC 07:00, whereas the claim's add-the-offset matcher fires at UTC 07:00; the
two disagree at UTC 07:00 of day 0. -/
theorem timezoneOffset_added_cex :
    shouldFireReminderAddingOffset 0 ⟨"r4", (8, 0), 60, 0, none, none⟩ 25200000 = true
      ∧ shouldFireReminder 0 ⟨"r4", (8, 0), 60, 0, none, none⟩ 25200000 = false
      ∧ shouldFireReminder 0 ⟨"r4", (8, 0), 60, 0, none, none⟩ 32400000 = true := by
  decide

/-- C4 amended: the matcher obtains local time by subtracting
`timezoneOffsetMinutes` from UTC (local = UTC − offset·60000), for positive and
negative offsets alike: evaluating a reminder at `nowUtc` coincides with
evaluating the same reminder with offset zeroed (and `lastSentISO` shifted
accordingly) at the instant `nowUtc - tz*60000`. -/
theorem shouldFireReminder_tz_subtracts (hostOff : Int) (rem : Reminder) (now : Int) :
    shouldFireReminder hostOff rem now
      = shouldFireReminder hostOff
          { rem with
            timezoneOffsetMinutes := 0,
            lastSentISO := rem.lastSentISO.map
              (fun l => l - rem.timezoneOffsetMinutes * 60000) }
          (now - rem.timezoneOffsetMinutes * 60000) := by
  obtain ⟨i, ⟨sh, sm⟩, tz, rep, ru, ls⟩ := rem
  rw [shouldFireReminder_eq_fireCanon, shouldFireReminder_eq_fireCanon]
  dsimp only
  cases ls with
  | none =>
      simp only [Option.map_none']
      congr 1
      ring
  | some l =>
      simp only [Option.map_some']
      have hlf : now - tz * 60000 - 0 * 60000 + hostOff * 60000
          = now - tz * 60000 + hostOff * 60000 := by ring
      have hel : now - tz * 60000 - (l - tz * 60000) = now - l := by ring
      rw [hlf, hel]

/-- Counterexample for C5: the matcher's result depends on the evaluating
host's timezone — the same reminder and the same UTC instant give `true` on a
UTC host and `false` on a UTC+60 host. -/
theorem hostTimezone_dependence_cex :
    shouldFireReminder 0 ⟨"r5", (8, 0), 0, 0, none, none⟩ 28800000 = true
      ∧ shouldFireReminder 60 ⟨"r5", (8, 0), 0, 0, none, none⟩ 28800000 = false := by
  decide

/-- C5 amended: `shouldFireReminder` is a pure deterministic function of the
reminder, the UTC instant, and the evaluating host's fixed UTC offset (JS Date
local-calendar methods read the host timezone): evaluating at host offset `δ`
coincides with evaluating on a UTC host after decreasing `timezoneOffsetMinutes`
by `δ`; on a fixed host (such as the UTC deployment) it depends on nothing but
its two arguments. -/
theorem shouldFireReminder_host_shift (hostOff : Int) (rem : Reminder) (now : Int) :
    shouldFireReminder hostOff rem now
      = shouldFireReminder 0
          { rem with timezoneOffsetMinutes := rem.timezoneOffsetMinutes - hostOff }
          now := by
  obtain ⟨i, ⟨sh, sm⟩, tz, rep, ru, ls⟩ := rem
  rw [shouldFireReminder_eq_fireCanon, shouldFireReminder_eq_fireCanon]
  dsimp only
  congr 1
  ring

/-- Push subscription: the identity is `endpoint`; the encryption keys are
opaque to the core and carried along uninterpreted. -/
structure Subscription where
  endpoint : String
  keys : String
deriving DecidableEq

/-- User record (server.js db.json shape). -/
structure User where
  id : String
  subscription : Subscription
  reminders : List Reminder
deriving DecidableEq

/-- The persisted store: `{ users: [...] }`. -/
structure DB where
  users : List User
deriving DecidableEq

/-- `findUserByEndpoint(data, endpoint)` (server.js lines 65-67): first user
whose subscription has the given endpoint. -/
def findUserByEndpoint (data : DB) (endpoint : String) : Option User :=
  data.users.find? (fun u => u.subscription.endpoint == endpoint)

/-- Replace the subscription of the first user matching the endpoint — the
functional rendering of the in-place mutation `user.subscription =
subscription` performed on the user found by `findUserByEndpoint`. -/
def updateSubscription (sub : Subscription) : List User → List User
  | [] => []
  | u :: us =>
      if u.subscription.endpoint == sub.endpoint then
        { u with subscription := sub } :: us
      else
        u :: updateSubscription sub us

/-- `addOrUpdateUserInData(data, subscription)` (server.js lines 68-78).  The
fresh id that `crypto.randomBytes` would produce is passed explicitly.
Returns the updated store and the created-or-updated user. -/
def addOrUpdateUserInData (freshId : String) (data : DB) (sub : Subscription) :
    DB × User :=
  match findUserByEndpoint data sub.endpoint with
  | none =>
      let u : User := ⟨freshId, sub, []⟩
      (⟨data.users ++ [u]⟩, u)
  | some u =>
      (⟨updateSubscription sub data.users⟩, { u with subscription := sub })

/-- Remove the first reminder with the given id
(`findIndex` + `splice(idx, 1)`); `none` when no reminder matches. -/
def removeFirstReminder (rid : String) : List Reminder → Option (List Reminder)
  | [] => none
  | r :: rs =>
      if r.id == rid then some rs
      else (removeFirstReminder rid rs).map (fun rs2 => r :: rs2)

/-- The user-loop of the `/deleteReminder` handler: the first user owning the
reminder id has that one reminder spliced out; `none` when no user does. -/
def deleteReminderFromUsers (rid : String) : List User → Option (List User)
  | [] => none
  | u :: us =>
      match removeFirstReminder rid u.reminders with
      | some rs => some ({ u with reminders := rs } :: us)
      | none =>
          match deleteReminderFromUsers rid us with
          | some us2 => some (u :: us2)
          | none => none

/-- Outcome of the `/deleteReminder` handler: HTTP status, `success` flag, the
resulting store, and whether `writeDB` ran. -/
structure DeleteResult where
  status : Nat
  success : Bool
  db : DB
  wrote : Bool
deriving DecidableEq

/-- POST `/deleteReminder` (server.js lines 176-198).  The request id is
`none` when the body carries no id; the empty string is JavaScript-falsy and
also rejected with 400.  On a miss the handler answers 404 and performs no
write. -/
def deleteReminderHandler (data : DB) (rid : Option String) : DeleteResult :=
  match rid with
  | none => ⟨400, false, data, false⟩
  | some s =>
      if s == "" then ⟨400, false, data, false⟩
      else
        match deleteReminderFromUsers s data.users with
        | some us => ⟨200, true, ⟨us⟩, true⟩
        | none => ⟨404, false, data, false⟩

/-- Outcome of one `webpush.sendNotification` call: resolved, or rejected with
an optional HTTP status code (absent for non-HTTP errors). -/
inductive SendOutcome where
  | ok : SendOutcome
  | err : Option Int → SendOutcome
deriving DecidableEq

/-- Permanent-failure classification (server.js lines 148, 267):
`err.statusCode === 410 || err.statusCode === 404`. -/
def isGoneStatus (st : Option Int) : Bool :=
  st == some 410 || st == some 404

/-- Stamp `lastSentISO` of the reminder with id `j`. -/
def stampRem (j : String) (t : Int) (r : Reminder) : Reminder :=
  if r.id == j then { r with lastSentISO := some t } else r

/-- Stamp `lastSentISO := t` on reminder `j` of a user. -/
def stampUser (j : String) (t : Int) (u : User) : User :=
  { u with reminders := u.reminders.map (stampRem j t) }

/-- The in-place `rem.lastSentISO = ...` mutation, rendered as a keyed update:
the reminder with id `j` of the user with the given endpoint (if still in the
store) gets `lastSentISO := t`. -/
def setLastSent (endpoint : String) (j : String) (t : Int) (users : List User) :
    List User :=
  users.map (fun u => if u.subscription.endpoint == endpoint then stampUser j t u else u)

/-- `db.users.splice(idx, 1)` at `idx = findIndex(endpoint match)`: remove the
first user with the given endpoint (no-op when absent). -/
def eraseFirstEndpoint (endpoint : String) : List User → List User
  | [] => []
  | u :: us =>
      if u.subscription.endpoint == endpoint then us
      else u :: eraseFirstEndpoint endpoint us

/-- One reminder step of the cron tick (server.js lines 251-276): if the
snapshot reminder fires, attempt delivery; on success stamp `lastSentISO`
(which touches the live store only if the user is still present); on a
rejection whose status is 410 or 404 remove the user; missing VAPID keys throw
before delivery, a statusCode-less error that removes nothing.  The tick's
ambient clock is the single instant `now` (the code reads `Date.now()` once
and stamps with a fresh `new Date()` on the same timeline). -/
def processRem (hostOff : Int) (deliver : Subscription → SendOutcome)
    (vapid : Bool) (now : Int) (sub : Subscription)
    (users : List User) (r : Reminder) : List User :=
  if shouldFireReminder hostOff r now then
    if vapid then
      match deliver sub with
      | .ok => setLastSent sub.endpoint r.id now users
      | .err st =>
          if isGoneStatus st then eraseFirstEndpoint sub.endpoint users else users
    else users
  else users

/-- One user of the cron tick: iterate a snapshot of its reminders. -/
def processUser (hostOff : Int) (deliver : Subscription → SendOutcome)
    (vapid : Bool) (now : Int) (users : List User) (u : User) : List User :=
  u.reminders.foldl (processRem hostOff deliver vapid now u.subscription) users

/-- The per-minute cron tick (server.js lines 244-283): iterate a snapshot of
the users, evaluate every reminder, send, stamp or remove, and persist the
resulting store once at the end. -/
def cronTick (hostOff : Int) (deliver : Subscription → SendOutcome)
    (vapid : Bool) (now : Int) (data : DB) : DB :=
  ⟨data.users.foldl (processUser hostOff deliver vapid now) data.users⟩

/-- One user of the manual broadcast (server.js lines 142-153): deliver
unconditionally; on a 410/404 rejection remove the user. -/
def broadcastStep (deliver : Subscription → SendOutcome)
    (users : List User) (u : User) : List User :=
  match deliver u.subscription with
  | .ok => users
  | .err st =>
      if isGoneStatus st then eraseFirstEndpoint u.subscription.endpoint users else users

/-- POST `/sendNotification` (server.js lines 128-157), store effect only:
with VAPID keys configured, broadcast to a snapshot of every user and persist
the resulting store; without them the handler answers 500 before touching the
store. -/
def sendNotificationHandler (vapid : Bool) (deliver : Subscription → SendOutcome)
    (data : DB) : DB :=
  if vapid then ⟨data.users.foldl (broadcastStep deliver) data.users⟩ else data

/-- Number of users carrying the given endpoint. -/
def cntEndpoint (endpoint : String) (users : List User) : Nat :=
  users.countP (fun u => u.subscription.endpoint == endpoint)

/-- First reminder with the given id. -/
def findReminderById (rs : List Reminder) (rid : String) : Option Reminder :=
  rs.find? (fun r => r.id == rid)

/-- Users not carrying the endpoint are untouched by the subscription map. -/
theorem map_updSub_of_cnt_zero (sub : Subscription) :
    ∀ l : List User, cntEndpoint sub.endpoint l = 0 →
      l.map (fun v => if v.subscription.endpoint == sub.endpoint then
        { v with subscription := sub } else v) = l := by
  intro l h
  induction l with
  | nil => rfl
  | cons v vs ih =>
      unfold cntEndpoint at h
      rw [List.countP_cons] at h
      have hv : (v.subscription.endpoint == sub.endpoint) = false := by
        by_cases hb : (v.subscription.endpoint == sub.endpoint) = true
        · simp [hb] at h
        · simpa using hb
      simp only [List.map_cons, hv, Bool.false_eq_true, if_false]
      rw [ih (by unfold cntEndpoint; omega)]

/-- With at most one user on the endpoint, the first-match subscription
replacement is the pointwise map. -/
theorem updateSubscription_eq_map (sub : Subscription) :
    ∀ l : List User, cntEndpoint sub.endpoint l ≤ 1 →
      updateSubscription sub l
        = l.map (fun v => if v.subscription.endpoint == sub.endpoint then
            { v with subscription := sub } else v) := by
  intro l h
  induction l with
  | nil => rfl
  | cons v vs ih =>
      unfold updateSubscription
      unfold cntEndpoint at h
      by_cases hv : (v.subscription.endpoint == sub.endpoint) = true
      · rw [List.countP_cons_of_pos (fun u : User => u.subscription.endpoint == sub.endpoint) vs hv] at h
        simp only [hv, if_true, List.map_cons]
        have hvs : cntEndpoint sub.endpoint vs = 0 := by unfold cntEndpoint; omega
        rw [map_updSub_of_cnt_zero sub vs hvs]
      · have hv' : (v.subscription.endpoint == sub.endpoint) = false := by simpa using hv
        rw [List.countP_cons_of_neg (fun u : User => u.subscription.endpoint == sub.endpoint) vs (by simp [hv'])] at h
        simp only [hv', Bool.false_eq_true, if_false, List.map_cons]
        rw [ih (by unfold cntEndpoint; omega)]

/-- The subscription map preserves endpoints, hence endpoint counts. -/
theorem cnt_map_updSub (E : String) (sub : Subscription) (l : List User) :
    cntEndpoint E (l.map (fun v => if v.subscription.endpoint == sub.endpoint then
      { v with subscription := sub } else v)) = cntEndpoint E l := by
  induction l with
  | nil => rfl
  | cons v vs ih =>
      unfold cntEndpoint at ih ⊢
      simp only [List.map_cons, List.countP_cons]
      by_cases hv : (v.subscription.endpoint == sub.endpoint) = true
      · have he : v.subscription.endpoint = sub.endpoint := by simpa using hv
        simp only [hv, if_true]
        rw [ih]
        simp [he]
      · have hv' : (v.subscription.endpoint == sub.endpoint) = false := by simpa using hv
        simp only [hv', Bool.false_eq_true, if_false]
        rw [ih]

/-- C6: upserting a subscription whose endpoint is already held by exactly one
user keeps exactly one user on that endpoint, preserves that user's id and
reminders while overwriting only its subscription, leaves every other user
untouched, and a second upsert of the same subscription returns the same store
and the same user (stable id). -/
theorem addOrUpdateUserInData_upsert_existing (fid fid2 : String) (data : DB)
    (sub : Subscription) (h1 : cntEndpoint sub.endpoint data.users = 1) :
    ∃ w, findUserByEndpoint data sub.endpoint = some w
      ∧ (addOrUpdateUserInData fid data sub).2 = { w with subscription := sub }
      ∧ (addOrUpdateUserInData fid data sub).1.users
          = data.users.map (fun v => if v.subscription.endpoint == sub.endpoint then
              { v with subscription := sub } else v)
      ∧ cntEndpoint sub.endpoint (addOrUpdateUserInData fid data sub).1.users = 1
      ∧ addOrUpdateUserInData fid2 (addOrUpdateUserInData fid data sub).1 sub
          = ((addOrUpdateUserInData fid data sub).1, (addOrUpdateUserInData fid data sub).2) := by
  have hpos : 0 < data.users.countP (fun u => u.subscription.endpoint == sub.endpoint) := by
    unfold cntEndpoint at h1; omega
  obtain ⟨w, hwmem, hwp⟩ := List.countP_pos_iff.mp hpos
  have hwe : w.subscription.endpoint = sub.endpoint := by simpa using hwp
  have hfind : findUserByEndpoint data sub.endpoint = some w := by
    unfold findUserByEndpoint
    obtain ⟨s, t, heq⟩ := List.append_of_mem hwmem
    have hs0 : s.countP (fun u => u.subscription.endpoint == sub.endpoint) = 0 := by
      unfold cntEndpoint at h1
      rw [heq, List.countP_append, List.countP_cons_of_pos (fun u : User => u.subscription.endpoint == sub.endpoint) t hwp] at h1
      omega
    rw [heq, List.find?_append]
    rw [List.find?_eq_none.mpr (fun x hx => by
      have := List.countP_eq_zero.mp hs0 x hx; simpa using this)]
    rw [Option.none_or]
    exact List.find?_cons_of_pos _ hwp
  have husers : (addOrUpdateUserInData fid data sub).1.users
      = data.users.map (fun v => if v.subscription.endpoint == sub.endpoint then
          { v with subscription := sub } else v) := by
    unfold addOrUpdateUserInData
    rw [hfind]
    exact updateSubscription_eq_map sub data.users (by omega)
  have hret : (addOrUpdateUserInData fid data sub).2 = { w with subscription := sub } := by
    unfold addOrUpdateUserInData
    rw [hfind]
  have hcnt2 : cntEndpoint sub.endpoint (addOrUpdateUserInData fid data sub).1.users = 1 := by
    rw [husers, cnt_map_updSub]
    exact h1
  refine ⟨w, hfind, hret, husers, hcnt2, ?_⟩
  have hdb : (addOrUpdateUserInData fid data sub).1
      = ⟨data.users.map (fun v => if v.subscription.endpoint == sub.endpoint then
          { v with subscription := sub } else v)⟩ := by
    rw [← husers]
  rw [hdb, hret]
  have hfind2 : findUserByEndpoint ⟨data.users.map
      (fun v => if v.subscription.endpoint == sub.endpoint then
        { v with subscription := sub } else v)⟩ sub.endpoint
      = some { w with subscription := sub } := by
    unfold findUserByEndpoint
    dsimp only
    rw [List.find?_map]
    have hcomp : ((fun u : User => u.subscription.endpoint == sub.endpoint) ∘
        (fun v => if v.subscription.endpoint == sub.endpoint then
          { v with subscription := sub } else v))
        = fun u : User => u.subscription.endpoint == sub.endpoint := by
      funext v
      by_cases hv : (v.subscription.endpoint == sub.endpoint) = true
      · simp [Function.comp, hv]
      · have hv' : (v.subscription.endpoint == sub.endpoint) = false := by simpa using hv
        simp [Function.comp, hv']
    rw [hcomp]
    have hfind' : (data.users.find?
        (fun u => u.subscription.endpoint == sub.endpoint)) = some w := hfind
    rw [hfind']
    simp [hwe]
  unfold addOrUpdateUserInData
  rw [hfind2]
  have hmap2 : updateSubscription sub (data.users.map
      (fun v => if v.subscription.endpoint == sub.endpoint then
        { v with subscription := sub } else v))
      = data.users.map (fun v => if v.subscription.endpoint == sub.endpoint then
          { v with subscription := sub } else v) := by
    rw [updateSubscription_eq_map sub _ (by
      have := cnt_map_updSub sub.endpoint sub data.users
      rw [this]; omega)]
    rw [List.map_map]
    have hidem : ((fun v : User => if v.subscription.endpoint == sub.endpoint then
        { v with subscription := sub } else v) ∘
        (fun v : User => if v.subscription.endpoint == sub.endpoint then
          { v with subscription := sub } else v))
        = fun v : User => if v.subscription.endpoint == sub.endpoint then
            { v with subscription := sub } else v := by
      funext v
      by_cases hv : (v.subscription.endpoint == sub.endpoint) = true
      · simp [Function.comp, hv]
      · have hv' : (v.subscription.endpoint == sub.endpoint) = false := by simpa using hv
        simp [Function.comp, hv']
    rw [hidem]
  rw [hmap2]

/-- Witness for C6: a one-user store upserted with a fresh subscription on the
same endpoint. -/
theorem addOrUpdateUserInData_upsert_existing_witness :
    ∃ w, findUserByEndpoint ⟨[⟨"u1", ⟨"e1", "k1"⟩, []⟩]⟩ "e1" = some w
      ∧ (addOrUpdateUserInData "f1" ⟨[⟨"u1", ⟨"e1", "k1"⟩, []⟩]⟩ ⟨"e1", "k2"⟩).2
          = { w with subscription := ⟨"e1", "k2"⟩ }
      ∧ (addOrUpdateUserInData "f1" ⟨[⟨"u1", ⟨"e1", "k1"⟩, []⟩]⟩ ⟨"e1", "k2"⟩).1.users
          = [⟨"u1", ⟨"e1", "k1"⟩, []⟩].map
              (fun v => if v.subscription.endpoint == "e1" then
                { v with subscription := ⟨"e1", "k2"⟩ } else v)
      ∧ cntEndpoint "e1"
          (addOrUpdateUserInData "f1" ⟨[⟨"u1", ⟨"e1", "k1"⟩, []⟩]⟩ ⟨"e1", "k2"⟩).1.users = 1
      ∧ addOrUpdateUserInData "f2"
          (addOrUpdateUserInData "f1" ⟨[⟨"u1", ⟨"e1", "k1"⟩, []⟩]⟩ ⟨"e1", "k2"⟩).1 ⟨"e1", "k2"⟩
          = ((addOrUpdateUserInData "f1" ⟨[⟨"u1", ⟨"e1", "k1"⟩, []⟩]⟩ ⟨"e1", "k2"⟩).1,
             (addOrUpdateUserInData "f1" ⟨[⟨"u1", ⟨"e1", "k1"⟩, []⟩]⟩ ⟨"e1", "k2"⟩).2) :=
  addOrUpdateUserInData_upsert_existing "f1" "f2" ⟨[⟨"u1", ⟨"e1", "k1"⟩, []⟩]⟩
    ⟨"e1", "k2"⟩ (by decide)

/-- A reminder list free of the id yields no removal. -/
theorem removeFirstReminder_eq_none (s : String) :
    ∀ rs : List Reminder, (∀ r ∈ rs, r.id ≠ s) → removeFirstReminder s rs = none := by
  intro rs h
  induction rs with
  | nil => rfl
  | cons r rs ih =>
      unfold removeFirstReminder
      have : (r.id == s) = false := by
        have := h r (by simp); simpa using this
      rw [this]
      simp only [Bool.false_eq_true, if_false]
      rw [ih (fun x hx => h x (by simp [hx]))]
      rfl

/-- A store free of the reminder id is left untouched by the user loop. -/
theorem deleteReminderFromUsers_eq_none (s : String) :
    ∀ l : List User, (∀ u ∈ l, ∀ r ∈ u.reminders, r.id ≠ s) →
      deleteReminderFromUsers s l = none := by
  intro l h
  induction l with
  | nil => rfl
  | cons u us ih =>
      unfold deleteReminderFromUsers
      rw [removeFirstReminder_eq_none s u.reminders (h u (by simp))]
      rw [ih (fun v hv => h v (by simp [hv]))]

/-- C7: deleting a reminder id present nowhere in the store answers 404 with
`success: false`, performs no write, and returns the store unchanged. -/
theorem deleteReminder_notFound (data : DB) (s : String) (hs : s ≠ "")
    (habs : ∀ u ∈ data.users, ∀ r ∈ u.reminders, r.id ≠ s) :
    deleteReminderHandler data (some s) = ⟨404, false, data, false⟩ := by
  unfold deleteReminderHandler
  dsimp only
  have hs' : (s == "") = false := by simpa using hs
  rw [hs']
  simp only [Bool.false_eq_true, if_false]
  rw [deleteReminderFromUsers_eq_none s data.users habs]

/-- Witness for C7: deleting the unknown id "zz" from a one-user store. -/
theorem deleteReminder_notFound_witness :
    deleteReminderHandler ⟨[⟨"u1", ⟨"e1", "k1"⟩, [⟨"r1", (8, 0), 0, 0, none, none⟩]⟩]⟩
      (some "zz")
      = ⟨404, false, ⟨[⟨"u1", ⟨"e1", "k1"⟩, [⟨"r1", (8, 0), 0, 0, none, none⟩]⟩]⟩, false⟩ :=
  deleteReminder_notFound ⟨[⟨"u1", ⟨"e1", "k1"⟩, [⟨"r1", (8, 0), 0, 0, none, none⟩]⟩]⟩
    "zz" (by decide) (by decide)

/-- A predicate-preserving map keeps `countP`. -/
theorem countP_map_pres {α : Type} (p : α → Bool) (f : α → α)
    (hf : ∀ a, p (f a) = p a) :
    ∀ l : List α, (l.map f).countP p = l.countP p := by
  intro l
  induction l with
  | nil => rfl
  | cons a l ih => simp [List.countP_cons, ih, hf]

/-- The first element satisfying a predicate of count one is any member
satisfying it. -/
theorem find?_of_countP_one {α : Type} (p : α → Bool) {l : List α} {a : α}
    (ha : a ∈ l) (hpa : p a = true) (h1 : l.countP p = 1) : l.find? p = some a := by
  obtain ⟨s, t, heq⟩ := List.append_of_mem ha
  have hs0 : s.countP p = 0 := by
    rw [heq, List.countP_append, List.countP_cons_of_pos p t hpa] at h1
    omega
  rw [heq, List.find?_append,
    List.find?_eq_none.mpr (fun x hx => List.countP_eq_zero.mp hs0 x hx),
    Option.none_or]
  exact List.find?_cons_of_pos _ hpa

/-- Stamping a reminder keeps endpoint counts. -/
theorem cnt_setLastSent (E E' j : String) (t : Int) (l : List User) :
    cntEndpoint E (setLastSent E' j t l) = cntEndpoint E l := by
  unfold cntEndpoint setLastSent
  apply countP_map_pres
  intro v
  by_cases hv : (v.subscription.endpoint == E') = true
  · simp [hv, stampUser]
  · have hv' : (v.subscription.endpoint == E') = false := by simpa using hv
    simp [hv']

/-- Removing a user can only lower an endpoint count. -/
theorem cnt_erase_le (E E' : String) :
    ∀ l : List User, cntEndpoint E (eraseFirstEndpoint E' l) ≤ cntEndpoint E l := by
  intro l
  induction l with
  | nil => exact Nat.le_refl _
  | cons v vs ih =>
      unfold eraseFirstEndpoint
      unfold cntEndpoint at ih ⊢
      by_cases hv : (v.subscription.endpoint == E') = true
      · simp only [hv, if_true]
        rw [List.countP_cons]
        omega
      · have hv' : (v.subscription.endpoint == E') = false := by simpa using hv
        simp only [hv', Bool.false_eq_true, if_false]
        rw [List.countP_cons, List.countP_cons]
        omega

/-- Removing the first user on an endpoint empties a count that was at most
one. -/
theorem cnt_erase_self (E : String) :
    ∀ l : List User, cntEndpoint E l ≤ 1 →
      cntEndpoint E (eraseFirstEndpoint E l) = 0 := by
  intro l
  induction l with
  | nil => intro _; rfl
  | cons v vs ih =>
      intro h
      unfold eraseFirstEndpoint
      unfold cntEndpoint at h ih ⊢
      by_cases hv : (v.subscription.endpoint == E) = true
      · rw [List.countP_cons_of_pos (fun u : User => u.subscription.endpoint == E) vs hv] at h
        simp only [hv, if_true]
        omega
      · have hv' : (v.subscription.endpoint == E) = false := by simpa using hv
        rw [List.countP_cons_of_neg (fun u : User => u.subscription.endpoint == E) vs
          (by simp [hv'])] at h
        simp only [hv', Bool.false_eq_true, if_false]
        rw [List.countP_cons_of_neg (fun u : User => u.subscription.endpoint == E) _
          (by simp [hv'])]
        exact ih h

/-- One reminder step never raises an endpoint count. -/
theorem cnt_processRem_le (E : String) (hostOff : Int)
    (deliver : Subscription → SendOutcome) (vapid : Bool) (now : Int)
    (sub : Subscription) (users : List User) (r : Reminder) :
    cntEndpoint E (processRem hostOff deliver vapid now sub users r)
      ≤ cntEndpoint E users := by
  unfold processRem
  split_ifs with h1 h2
  · rcases hd : deliver sub with _ | st
    · simp only [hd]
      rw [cnt_setLastSent]
    · simp only [hd]
      by_cases hg : isGoneStatus st = true
      · simp only [hg, if_true]
        exact cnt_erase_le E sub.endpoint users
      · have hg' : isGoneStatus st = false := by simpa using hg
        simp only [hg', Bool.false_eq_true, if_false]
        exact Nat.le_refl _
  · exact Nat.le_refl _
  · exact Nat.le_refl _

/-- The reminder loop of one user never raises an endpoint count. -/
theorem cnt_foldl_processRem_le (E : String) (hostOff : Int)
    (deliver : Subscription → SendOutcome) (vapid : Bool) (now : Int)
    (sub : Subscription) :
    ∀ (rs : List Reminder) (users : List User),
      cntEndpoint E (rs.foldl (processRem hostOff deliver vapid now sub) users)
        ≤ cntEndpoint E users := by
  intro rs
  induction rs with
  | nil => intro users; exact Nat.le_refl _
  | cons r rs ih =>
      intro users
      rw [List.foldl_cons]
      exact Nat.le_trans (ih _) (cnt_processRem_le E hostOff deliver vapid now sub users r)

/-- The user loop of the tick never raises an endpoint count. -/
theorem cnt_foldl_processUser_le (E : String) (hostOff : Int)
    (deliver : Subscription → SendOutcome) (vapid : Bool) (now : Int) :
    ∀ (snapshot : List User) (users : List User),
      cntEndpoint E (snapshot.foldl (processUser hostOff deliver vapid now) users)
        ≤ cntEndpoint E users := by
  intro snapshot
  induction snapshot with
  | nil => intro users; exact Nat.le_refl _
  | cons v vs ih =>
      intro users
      rw [List.foldl_cons]
      exact Nat.le_trans (ih _)
        (cnt_foldl_processRem_le E hostOff deliver vapid now v.subscription
          v.reminders users)

/-- One broadcast step never raises an endpoint count. -/
theorem cnt_broadcastStep_le (E : String) (deliver : Subscription → SendOutcome)
    (users : List User) (v : User) :
    cntEndpoint E (broadcastStep deliver users v) ≤ cntEndpoint E users := by
  unfold broadcastStep
  rcases hd : deliver v.subscription with _ | st
  · exact Nat.le_refl _
  · by_cases hg : isGoneStatus st = true
    · simp only [hg, if_true]
      exact cnt_erase_le E v.subscription.endpoint users
    · have hg' : isGoneStatus st = false := by simpa using hg
      simp only [hg', Bool.false_eq_true, if_false]
      exact Nat.le_refl _

/-- The broadcast loop never raises an endpoint count. -/
theorem cnt_foldl_broadcastStep_le (E : String) (deliver : Subscription → SendOutcome) :
    ∀ (snapshot : List User) (users : List User),
      cntEndpoint E (snapshot.foldl (broadcastStep deliver) users)
        ≤ cntEndpoint E users := by
  intro snapshot
  induction snapshot with
  | nil => intro users; exact Nat.le_refl _
  | cons v vs ih =>
      intro users
      rw [List.foldl_cons]
      exact Nat.le_trans (ih _) (cnt_broadcastStep_le E deliver users v)

/-- Removing a user on a different endpoint does not change the user found on
this one. -/
theorem find?_erase_ne (E E' : String) (hne : E' ≠ E) :
    ∀ l : List User,
      (eraseFirstEndpoint E' l).find? (fun u => u.subscription.endpoint == E)
        = l.find? (fun u => u.subscription.endpoint == E) := by
  intro l
  induction l with
  | nil => rfl
  | cons v vs ih =>
      unfold eraseFirstEndpoint
      by_cases hv : (v.subscription.endpoint == E') = true
      · simp only [hv, if_true]
        have hvE : (v.subscription.endpoint == E) = false := by
          have hvE' : v.subscription.endpoint = E' := by simpa using hv
          simp [hvE', hne]
        rw [List.find?_cons]
        simp only [hvE, Bool.false_eq_true, if_false]
      · have hv' : (v.subscription.endpoint == E') = false := by simpa using hv
        simp only [hv', Bool.false_eq_true, if_false]
        rw [List.find?_cons, List.find?_cons]
        by_cases hvE : (v.subscription.endpoint == E) = true
        · simp only [hvE, if_true]
        · have hvE' : (v.subscription.endpoint == E) = false := by simpa using hvE
          simp only [hvE', Bool.false_eq_true, if_false]
          exact ih

/-- The endpoint-guarded stamping map preserves the find-predicate. -/
theorem comp_stamp_pres (E E' j : String) (t : Int) :
    ((fun u : User => u.subscription.endpoint == E) ∘
      (fun v : User => if v.subscription.endpoint == E' then stampUser j t v else v))
      = fun u : User => u.subscription.endpoint == E := by
  funext v
  by_cases hv : (v.subscription.endpoint == E') = true
  · simp [Function.comp, hv, stampUser]
  · have hv' : (v.subscription.endpoint == E') = false := by simpa using hv
    simp [Function.comp, hv']

/-- Stamping on a different endpoint does not change the user found on this
one. -/
theorem find?_setLastSent_ne (E E' j : String) (t : Int) (hne : E' ≠ E)
    (l : List User) :
    (setLastSent E' j t l).find? (fun u => u.subscription.endpoint == E)
      = l.find? (fun u => u.subscription.endpoint == E) := by
  unfold setLastSent
  rw [List.find?_map, comp_stamp_pres E E' j t]
  cases hf : l.find? (fun u => u.subscription.endpoint == E) with
  | none => rfl
  | some w =>
      simp only [Option.map_some']
      have hwE : w.subscription.endpoint = E := by
        have := List.find?_some hf
        simpa using this
      have hwne : (w.subscription.endpoint == E') = false := by
        simp [hwE]
        exact fun hc => hne hc.symm
      rw [hwne]
      simp

/-- Stamping on this endpoint maps the found user through `stampUser`. -/
theorem find?_setLastSent_eq (E j : String) (t : Int) (l : List User) :
    (setLastSent E j t l).find? (fun u => u.subscription.endpoint == E)
      = (l.find? (fun u => u.subscription.endpoint == E)).map (stampUser j t) := by
  unfold setLastSent
  rw [List.find?_map, comp_stamp_pres E E j t]
  cases hf : l.find? (fun u => u.subscription.endpoint == E) with
  | none => rfl
  | some w =>
      simp only [Option.map_some']
      have hwE : (w.subscription.endpoint == E) = true := by
        have := List.find?_some hf
        simpa using this
      rw [hwE]
      simp

/-- Stamping preserves reminder ids, so lookup by id maps through the stamp. -/
theorem findRem_stampUser (j i : String) (t : Int) (w : User) :
    findReminderById (stampUser j t w).reminders i
      = (findReminderById w.reminders i).map (stampRem j t) := by
  unfold stampUser findReminderById
  dsimp only
  rw [List.find?_map]
  have hcomp : ((fun r : Reminder => r.id == i) ∘ stampRem j t)
      = fun r : Reminder => r.id == i := by
    funext r
    unfold stampRem
    by_cases hr : (r.id == j) = true
    · simp [Function.comp, hr]
    · have hr' : (r.id == j) = false := by simpa using hr
      simp [Function.comp, hr']
  rw [hcomp]

/-- A reminder step on a different endpoint does not change the user found on
this one. -/
theorem find?_processRem_ne (E : String) (hostOff : Int)
    (deliver : Subscription → SendOutcome) (vapid : Bool) (now : Int)
    (sub : Subscription) (hne : sub.endpoint ≠ E) (users : List User) (r : Reminder) :
    (processRem hostOff deliver vapid now sub users r).find?
        (fun u => u.subscription.endpoint == E)
      = users.find? (fun u => u.subscription.endpoint == E) := by
  unfold processRem
  split_ifs with h1 h2
  · rcases hd : deliver sub with _ | st
    · exact find?_setLastSent_ne E sub.endpoint r.id now hne users
    · by_cases hg : isGoneStatus st = true
      · simp only [hg, if_true]
        exact find?_erase_ne E sub.endpoint hne users
      · have hg' : isGoneStatus st = false := by simpa using hg
        simp only [hg', Bool.false_eq_true, if_false]
  · rfl
  · rfl

/-- The reminder loop of a user on a different endpoint does not change the
user found on this one. -/
theorem find?_foldl_processRem_ne (E : String) (hostOff : Int)
    (deliver : Subscription → SendOutcome) (vapid : Bool) (now : Int)
    (sub : Subscription) (hne : sub.endpoint ≠ E) :
    ∀ (rs : List Reminder) (users : List User),
      (rs.foldl (processRem hostOff deliver vapid now sub) users).find?
          (fun u => u.subscription.endpoint == E)
        = users.find? (fun u => u.subscription.endpoint == E) := by
  intro rs
  induction rs with
  | nil => intro users; rfl
  | cons r rs ih =>
      intro users
      rw [List.foldl_cons, ih,
        find?_processRem_ne E hostOff deliver vapid now sub hne users r]

/-- Processing users on other endpoints does not change the user found on this
one. -/
theorem find?_foldl_processUser_ne (E : String) (hostOff : Int)
    (deliver : Subscription → SendOutcome) (vapid : Bool) (now : Int) :
    ∀ (snapshot : List User), (∀ v ∈ snapshot, v.subscription.endpoint ≠ E) →
      ∀ users : List User,
        (snapshot.foldl (processUser hostOff deliver vapid now) users).find?
            (fun u => u.subscription.endpoint == E)
          = users.find? (fun u => u.subscription.endpoint == E) := by
  intro snapshot
  induction snapshot with
  | nil => intro _ users; rfl
  | cons v vs ih =>
      intro hvs users
      rw [List.foldl_cons, ih (fun x hx => hvs x (by simp [hx]))]
      exact find?_foldl_processRem_ne E hostOff deliver vapid now v.subscription
        (hvs v (by simp)) v.reminders users

/-- A firing reminder with successful delivery stamps `lastSentISO`. -/
theorem processRem_fire_ok (hostOff now : Int) (deliver : Subscription → SendOutcome)
    (sub : Subscription) (users : List User) (r : Reminder)
    (hfire : shouldFireReminder hostOff r now = true) (hdel : deliver sub = .ok) :
    processRem hostOff deliver true now sub users r
      = setLastSent sub.endpoint r.id now users := by
  unfold processRem
  simp [hfire, hdel]

/-- A non-firing reminder leaves the store alone. -/
theorem processRem_nofire (hostOff now : Int) (deliver : Subscription → SendOutcome)
    (vapid : Bool) (sub : Subscription) (users : List User) (r : Reminder)
    (h1 : shouldFireReminder hostOff r now = false) :
    processRem hostOff deliver vapid now sub users r = users := by
  unfold processRem
  simp [h1]

/-- A delivery rejection without a 410/404 status leaves the store alone. -/
theorem processRem_err_skip (hostOff now : Int) (deliver : Subscription → SendOutcome)
    (sub : Subscription) (users : List User) (r : Reminder) (st : Option Int)
    (hdel : deliver sub = .err st) (hg : isGoneStatus st = false) :
    processRem hostOff deliver true now sub users r = users := by
  unfold processRem
  by_cases h1 : shouldFireReminder hostOff r now = true <;> simp [h1, hdel, hg]

/-- A firing reminder whose delivery rejects with 410/404 removes the user. -/
theorem processRem_fire_gone (hostOff now : Int) (deliver : Subscription → SendOutcome)
    (sub : Subscription) (users : List User) (r : Reminder) (st : Option Int)
    (hfire : shouldFireReminder hostOff r now = true)
    (hdel : deliver sub = .err st) (hg : isGoneStatus st = true) :
    processRem hostOff deliver true now sub users r
      = eraseFirstEndpoint sub.endpoint users := by
  unfold processRem
  simp [hfire, hdel, hg]

/-- Under a transient failure the whole reminder loop of a user is a no-op. -/
theorem foldl_processRem_err_skip (hostOff now : Int)
    (deliver : Subscription → SendOutcome) (sub : Subscription) (st : Option Int)
    (hdel : deliver sub = .err st) (hg : isGoneStatus st = false) :
    ∀ (rs : List Reminder) (users : List User),
      rs.foldl (processRem hostOff deliver true now sub) users = users := by
  intro rs
  induction rs with
  | nil => intro users; rfl
  | cons r rs ih =>
      intro users
      rw [List.foldl_cons, processRem_err_skip hostOff now deliver sub users r st hdel hg,
        ih]

/-- Under successful delivery, reminders whose id differs from `j` keep the
looked-up user's reminder `j` (and its value) intact. -/
theorem foldl_processRem_ok_skip (hostOff now : Int)
    (deliver : Subscription → SendOutcome) (sub : Subscription) (j : String)
    (hdel : deliver sub = .ok) :
    ∀ (rs : List Reminder), (∀ x ∈ rs, (x.id == j) = false) →
      ∀ (users : List User) (w : User) (ρ : Reminder),
        users.find? (fun u => u.subscription.endpoint == sub.endpoint) = some w →
        findReminderById w.reminders j = some ρ →
        ∃ w2, (rs.foldl (processRem hostOff deliver true now sub) users).find?
            (fun u => u.subscription.endpoint == sub.endpoint) = some w2
          ∧ findReminderById w2.reminders j = some ρ := by
  intro rs
  induction rs with
  | nil => intro _ users w ρ hfw hfr; exact ⟨w, hfw, hfr⟩
  | cons x rs ih =>
      intro hids users w ρ hfw hfr
      rw [List.foldl_cons]
      by_cases h1 : shouldFireReminder hostOff x now = true
      · rw [processRem_fire_ok hostOff now deliver sub users x h1 hdel]
        refine ih (fun y hy => hids y (by simp [hy])) _ (stampUser x.id now w)
          ρ ?_ ?_
        · rw [find?_setLastSent_eq, hfw, Option.map_some']
        · rw [findRem_stampUser, hfr, Option.map_some']
          have hρ : (ρ.id == j) = true := by
            have := List.find?_some hfr
            simpa [findReminderById] using this
          have hρj : ρ.id = j := by simpa using hρ
          have hxne : (ρ.id == x.id) = false := by
            have hxj : (x.id == j) = false := hids x (by simp)
            have : x.id ≠ j := by simpa using hxj
            simp [hρj]
            exact fun hc => this hc.symm
          unfold stampRem
          rw [hxne]
          simp
      · have h1' : shouldFireReminder hostOff x now = false := by
          simpa using h1
        rw [processRem_nofire hostOff now deliver true sub users x h1']
        exact ih (fun y hy => hids y (by simp [hy])) users w ρ hfw hfr

/-- Under successful delivery, the reminder loop of the user stamps the firing
reminder `r` with the evaluation instant. -/
theorem foldl_processRem_ok_main (hostOff now : Int)
    (deliver : Subscription → SendOutcome) (sub : Subscription) (r : Reminder)
    (hdel : deliver sub = .ok) (rs : List Reminder) (hmem : r ∈ rs)
    (hcnt : rs.countP (fun x => x.id == r.id) = 1)
    (hfire : shouldFireReminder hostOff r now = true)
    (users : List User) (w : User)
    (hfw : users.find? (fun u => u.subscription.endpoint == sub.endpoint) = some w)
    (hfr : findReminderById w.reminders r.id = some r) :
    ∃ w2, (rs.foldl (processRem hostOff deliver true now sub) users).find?
        (fun u => u.subscription.endpoint == sub.endpoint) = some w2
      ∧ findReminderById w2.reminders r.id
          = some { r with lastSentISO := some now } := by
  obtain ⟨R1, R2, heq⟩ := List.append_of_mem hmem
  have hrr : (r.id == r.id) = true := by simp
  have hR1 : R1.countP (fun x => x.id == r.id) = 0 ∧
      R2.countP (fun x => x.id == r.id) = 0 := by
    rw [heq, List.countP_append,
      List.countP_cons_of_pos (fun x : Reminder => x.id == r.id) R2 hrr] at hcnt
    omega
  have hR1' : ∀ x ∈ R1, (x.id == r.id) = false := by
    intro x hx
    have := List.countP_eq_zero.mp hR1.1 x hx
    simpa using this
  have hR2' : ∀ x ∈ R2, (x.id == r.id) = false := by
    intro x hx
    have := List.countP_eq_zero.mp hR1.2 x hx
    simpa using this
  rw [heq, List.foldl_append, List.foldl_cons]
  obtain ⟨w1, hfw1, hfr1⟩ := foldl_processRem_ok_skip hostOff now deliver sub r.id
    hdel R1 hR1' users w r hfw hfr
  rw [processRem_fire_ok hostOff now deliver sub _ r hfire hdel]
  refine foldl_processRem_ok_skip hostOff now deliver sub r.id hdel R2 hR2' _
    (stampUser r.id now w1) { r with lastSentISO := some now } ?_ ?_
  · rw [find?_setLastSent_eq, hfw1, Option.map_some']
  · rw [findRem_stampUser, hfr1, Option.map_some']
    unfold stampRem
    rw [hrr]
    simp

/-- A broadcast rejection with 410/404 removes the user. -/
theorem broadcastStep_gone (deliver : Subscription → SendOutcome) (users : List User)
    (v : User) (st : Option Int) (hdel : deliver v.subscription = .err st)
    (hst : isGoneStatus st = true) :
    broadcastStep deliver users v = eraseFirstEndpoint v.subscription.endpoint users := by
  unfold broadcastStep
  simp [hdel, hst]

/-- C9: during a tick (VAPID configured), for a matched reminder of the single
user on its endpoint, `lastSentISO` becomes the evaluation instant exactly when
delivery resolves; when delivery rejects without a permanent status, the whole
user — every reminder and its `lastSentISO` — survives unchanged, so the
reminder is retried next tick. -/
theorem lastSent_updated_only_on_delivered (hostOff now : Int)
    (deliver : Subscription → SendOutcome) (data : DB) (u : User) (r : Reminder)
    (hu : u ∈ data.users)
    (hcntU : cntEndpoint u.subscription.endpoint data.users = 1)
    (hr : r ∈ u.reminders)
    (hcntR : u.reminders.countP (fun x => x.id == r.id) = 1)
    (hfire : shouldFireReminder hostOff r now = true) :
    (deliver u.subscription = .ok →
      ∃ w, findUserByEndpoint (cronTick hostOff deliver true now data)
          u.subscription.endpoint = some w
        ∧ findReminderById w.reminders r.id
            = some { r with lastSentISO := some now })
    ∧ (∀ st, deliver u.subscription = .err st → isGoneStatus st = false →
        findUserByEndpoint (cronTick hostOff deliver true now data)
          u.subscription.endpoint = some u) := by
  obtain ⟨P, Q, heq⟩ := List.append_of_mem hu
  have huE : (u.subscription.endpoint == u.subscription.endpoint) = true := by simp
  have hPQ : P.countP (fun v => v.subscription.endpoint == u.subscription.endpoint) = 0
      ∧ Q.countP (fun v => v.subscription.endpoint == u.subscription.endpoint) = 0 := by
    unfold cntEndpoint at hcntU
    rw [heq, List.countP_append,
      List.countP_cons_of_pos
        (fun v : User => v.subscription.endpoint == u.subscription.endpoint) Q huE]
      at hcntU
    omega
  have hP : ∀ v ∈ P, v.subscription.endpoint ≠ u.subscription.endpoint := by
    intro v hv
    have := List.countP_eq_zero.mp hPQ.1 v hv
    simpa using this
  have hQ : ∀ v ∈ Q, v.subscription.endpoint ≠ u.subscription.endpoint := by
    intro v hv
    have := List.countP_eq_zero.mp hPQ.2 v hv
    simpa using this
  have hfw0 : (P ++ u :: Q).find?
      (fun v => v.subscription.endpoint == u.subscription.endpoint) = some u := by
    refine find?_of_countP_one _ ?_ huE ?_
    · simp
    · have h1 := hcntU
      unfold cntEndpoint at h1
      rw [heq] at h1
      exact h1
  constructor
  · intro hdel
    unfold cronTick findUserByEndpoint
    dsimp only
    rw [heq, List.foldl_append, List.foldl_cons]
    have hfwA : ((P.foldl (processUser hostOff deliver true now) (P ++ u :: Q))).find?
        (fun v => v.subscription.endpoint == u.subscription.endpoint) = some u := by
      rw [find?_foldl_processUser_ne u.subscription.endpoint hostOff deliver true now
        P hP (P ++ u :: Q)]
      exact hfw0
    have hfru : findReminderById u.reminders r.id = some r := by
      unfold findReminderById
      exact find?_of_countP_one _ hr (by simp) hcntR
    obtain ⟨w2, hw2, hr2⟩ := foldl_processRem_ok_main hostOff now deliver
      u.subscription r hdel u.reminders hr hcntR hfire _ u hfwA hfru
    refine ⟨w2, ?_, hr2⟩
    rw [find?_foldl_processUser_ne u.subscription.endpoint hostOff deliver true now
      Q hQ _]
    exact hw2
  · intro st hdel hg
    unfold cronTick findUserByEndpoint
    dsimp only
    rw [heq, List.foldl_append, List.foldl_cons]
    rw [find?_foldl_processUser_ne u.subscription.endpoint hostOff deliver true now
      Q hQ _]
    have hpu : processUser hostOff deliver true now
        (P.foldl (processUser hostOff deliver true now) (P ++ u :: Q)) u
        = P.foldl (processUser hostOff deliver true now) (P ++ u :: Q) := by
      unfold processUser
      exact foldl_processRem_err_skip hostOff now deliver u.subscription st hdel hg
        u.reminders _
    rw [hpu]
    rw [find?_foldl_processUser_ne u.subscription.endpoint hostOff deliver true now
      P hP _]
    exact hfw0

/-- Witness for C9: one user, one firing reminder, delivery resolves — the
stored reminder carries `lastSentISO = now` after the tick. -/
theorem lastSent_updated_only_on_delivered_witness :
    ∃ w, findUserByEndpoint (cronTick 0 (fun _ => SendOutcome.ok) true 28800000
        ⟨[⟨"u1", ⟨"e1", "k1"⟩, [⟨"r1", (8, 0), 0, 0, none, none⟩]⟩]⟩) "e1" = some w
      ∧ findReminderById w.reminders "r1"
          = some ⟨"r1", (8, 0), 0, 0, none, some 28800000⟩ :=
  (lastSent_updated_only_on_delivered 0 28800000 (fun _ => SendOutcome.ok)
    ⟨[⟨"u1", ⟨"e1", "k1"⟩, [⟨"r1", (8, 0), 0, 0, none, none⟩]⟩]⟩
    ⟨"u1", ⟨"e1", "k1"⟩, [⟨"r1", (8, 0), 0, 0, none, none⟩]⟩
    ⟨"r1", (8, 0), 0, 0, none, none⟩
    (by decide) (by decide) (by decide) (by decide) (by decide)).1 rfl

/-- C8: a firing reminder whose delivery rejects with status 410 or 404 makes
the tick remove the user — with all its reminders — from the persisted store;
the manual broadcast removes it likewise; and any subsequent tick on the
persisted store never sees a user on that endpoint again. -/
theorem permanentFailure_removes_user (hostOff now : Int)
    (deliver : Subscription → SendOutcome) (data : DB) (u : User) (st : Option Int)
    (hu : u ∈ data.users)
    (hcntU : cntEndpoint u.subscription.endpoint data.users = 1)
    (hdel : deliver u.subscription = .err st) (hst : isGoneStatus st = true)
    (hfire : ∃ r ∈ u.reminders, shouldFireReminder hostOff r now = true) :
    (∀ v ∈ (cronTick hostOff deliver true now data).users,
        v.subscription.endpoint ≠ u.subscription.endpoint)
      ∧ (∀ v ∈ (sendNotificationHandler true deliver data).users,
          v.subscription.endpoint ≠ u.subscription.endpoint)
      ∧ (∀ (deliver2 : Subscription → SendOutcome) (vapid2 : Bool) (now2 : Int),
          ∀ v ∈ (cronTick hostOff deliver2 vapid2 now2
              (cronTick hostOff deliver true now data)).users,
            v.subscription.endpoint ≠ u.subscription.endpoint) := by
  have hmem0 : ∀ (l : List User),
      cntEndpoint u.subscription.endpoint l = 0 →
      ∀ v ∈ l, v.subscription.endpoint ≠ u.subscription.endpoint := by
    intro l h0 v hv
    unfold cntEndpoint at h0
    have := List.countP_eq_zero.mp h0 v hv
    simpa using this
  obtain ⟨P, Q, heq⟩ := List.append_of_mem hu
  have hE1 : cntEndpoint u.subscription.endpoint (P ++ u :: Q) = 1 := by
    rw [← heq]
    exact hcntU
  obtain ⟨r, hrmem, hrfire⟩ := hfire
  have htick : cntEndpoint u.subscription.endpoint
      (cronTick hostOff deliver true now data).users = 0 := by
    unfold cronTick
    dsimp only
    rw [heq, List.foldl_append, List.foldl_cons]
    have hA : cntEndpoint u.subscription.endpoint
        (P.foldl (processUser hostOff deliver true now) (P ++ u :: Q)) ≤ 1 := by
      have := cnt_foldl_processUser_le u.subscription.endpoint hostOff deliver true now
        P (P ++ u :: Q)
      omega
    have hB : cntEndpoint u.subscription.endpoint
        (processUser hostOff deliver true now
          (P.foldl (processUser hostOff deliver true now) (P ++ u :: Q)) u) = 0 := by
      have hPU : processUser hostOff deliver true now
          (P.foldl (processUser hostOff deliver true now) (P ++ u :: Q)) u
          = u.reminders.foldl (processRem hostOff deliver true now u.subscription)
              (P.foldl (processUser hostOff deliver true now) (P ++ u :: Q)) := rfl
      obtain ⟨R1, R2, heqr⟩ := List.append_of_mem hrmem
      rw [hPU, heqr, List.foldl_append, List.foldl_cons]
      have hB1 : cntEndpoint u.subscription.endpoint
          (R1.foldl (processRem hostOff deliver true now u.subscription)
            (P.foldl (processUser hostOff deliver true now) (P ++ u :: Q))) ≤ 1 := by
        have := cnt_foldl_processRem_le u.subscription.endpoint hostOff deliver true now
          u.subscription R1
          (P.foldl (processUser hostOff deliver true now) (P ++ u :: Q))
        omega
      rw [processRem_fire_gone hostOff now deliver u.subscription _ r st hrfire hdel hst]
      have h0 := cnt_erase_self u.subscription.endpoint _ hB1
      have := cnt_foldl_processRem_le u.subscription.endpoint hostOff deliver true now
        u.subscription R2
        (eraseFirstEndpoint u.subscription.endpoint
          (R1.foldl (processRem hostOff deliver true now u.subscription)
            (P.foldl (processUser hostOff deliver true now) (P ++ u :: Q))))
      omega
    have := cnt_foldl_processUser_le u.subscription.endpoint hostOff deliver true now
      Q (processUser hostOff deliver true now
        (P.foldl (processUser hostOff deliver true now) (P ++ u :: Q)) u)
    omega
  have hbroadcast : cntEndpoint u.subscription.endpoint
      (sendNotificationHandler true deliver data).users = 0 := by
    have hhandler : sendNotificationHandler true deliver data
        = ⟨data.users.foldl (broadcastStep deliver) data.users⟩ := rfl
    rw [hhandler]
    dsimp only
    rw [heq, List.foldl_append, List.foldl_cons]
    have hA : cntEndpoint u.subscription.endpoint
        (P.foldl (broadcastStep deliver) (P ++ u :: Q)) ≤ 1 := by
      have := cnt_foldl_broadcastStep_le u.subscription.endpoint deliver P (P ++ u :: Q)
      omega
    rw [broadcastStep_gone deliver _ u st hdel hst]
    have h0 := cnt_erase_self u.subscription.endpoint _ hA
    have := cnt_foldl_broadcastStep_le u.subscription.endpoint deliver Q
      (eraseFirstEndpoint u.subscription.endpoint
        (P.foldl (broadcastStep deliver) (P ++ u :: Q)))
    omega
  refine ⟨hmem0 _ htick, hmem0 _ hbroadcast, ?_⟩
  intro deliver2 vapid2 now2
  apply hmem0
  have hle := cnt_foldl_processUser_le u.subscription.endpoint hostOff deliver2 vapid2 now2
    (cronTick hostOff deliver true now data).users
    (cronTick hostOff deliver true now data).users
  have houter : cronTick hostOff deliver2 vapid2 now2
      (cronTick hostOff deliver true now data)
      = ⟨(cronTick hostOff deliver true now data).users.foldl
          (processUser hostOff deliver2 vapid2 now2)
          (cronTick hostOff deliver true now data).users⟩ := rfl
  rw [houter]
  dsimp only
  omega

/-- Witness for C8: one user whose only reminder fires while every delivery
rejects with 410 — the user is gone from the tick result, the broadcast
result, and any follow-up tick. -/
theorem permanentFailure_removes_user_witness :
    (∀ v ∈ (cronTick 0 (fun _ => SendOutcome.err (some 410)) true 28800000
        ⟨[⟨"u1", ⟨"e1", "k1"⟩, [⟨"r1", (8, 0), 0, 0, none, none⟩]⟩]⟩).users,
      v.subscription.endpoint ≠ "e1")
    ∧ (∀ v ∈ (sendNotificationHandler true (fun _ => SendOutcome.err (some 410))
        ⟨[⟨"u1", ⟨"e1", "k1"⟩, [⟨"r1", (8, 0), 0, 0, none, none⟩]⟩]⟩).users,
      v.subscription.endpoint ≠ "e1")
    ∧ (∀ (deliver2 : Subscription → SendOutcome) (vapid2 : Bool) (now2 : Int),
        ∀ v ∈ (cronTick 0 deliver2 vapid2 now2
            (cronTick 0 (fun _ => SendOutcome.err (some 410)) true 28800000
              ⟨[⟨"u1", ⟨"e1", "k1"⟩, [⟨"r1", (8, 0), 0, 0, none, none⟩]⟩]⟩)).users,
          v.subscription.endpoint ≠ "e1") :=
  permanentFailure_removes_user 0 28800000 (fun _ => SendOutcome.err (some 410))
    ⟨[⟨"u1", ⟨"e1", "k1"⟩, [⟨"r1", (8, 0), 0, 0, none, none⟩]⟩]⟩
    ⟨"u1", ⟨"e1", "k1"⟩, [⟨"r1", (8, 0), 0, 0, none, none⟩]⟩
    (some 410) (by decide) (by decide) rfl (by decide)
    ⟨⟨"r1", (8, 0), 0, 0, none, none⟩, by decide, by decide⟩

end Hydrate
